import Mathlib

/-
  Verification of the tensor-expression kernel compiler
  (torch/csrc/jit/tensorexpr/kernel.cpp) against its specification.

  The scalar expression IR (ExprHandle and its node kinds) is an external
  collaborator of the kernel core; it is shallowly embedded here as an
  inductive type of typed scalar expressions, evaluated over exact
  rationals.  All functions of kernel.cpp that the claims touch are
  translated directly from the source.
-/

namespace TE

/-- The two numeric element types the kernel supports (texprType admits
only Int and Float). -/
inductive Dtype
  | kInt32
  | kFloat32
deriving DecidableEq, Repr

/-- Shallow embedding of the scalar expression IR consumed by kernel.cpp:
immediates, variables, casts, arithmetic, comparison selects, min and max,
the intrinsics used by the pow lowering, and buffer loads. -/
inductive Expr
  | intImm (v : Int)
  | floatImm (v : Rat)
  | varE (name : String) (t : Dtype)
  | cast (t : Dtype) (e : Expr)
  | add (a b : Expr)
  | sub (a b : Expr)
  | mul (a b : Expr)
  | div (a b : Expr)
  | minE (a b : Expr)
  | maxE (a b : Expr)
  | cmpLT (a b : Expr)
  | ifThenElse (c a b : Expr)
  | sqrtE (e : Expr)
  | rsqrtE (e : Expr)
  | powE (a b : Expr)
  | load (buf : String) (t : Dtype) (idx : Expr)
deriving DecidableEq, Repr

/-- Result type of an expression, mirroring the dtype propagation of the
scalar IR: immediates carry their own type, casts impose theirs, binary
arithmetic promotes to float when either side is float, compare-selects
produce integers, and intrinsics keep their operand type. -/
def dtype : Expr → Dtype
  | .intImm _ => .kInt32
  | .floatImm _ => .kFloat32
  | .varE _ t => t
  | .cast t _ => t
  | .add a b | .sub a b | .mul a b | .div a b | .minE a b | .maxE a b =>
      if dtype a = .kFloat32 ∨ dtype b = .kFloat32 then .kFloat32 else .kInt32
  | .cmpLT _ _ => .kInt32
  | .ifThenElse _ a _ => dtype a
  | .sqrtE e => dtype e
  | .rsqrtE e => dtype e
  | .powE a _ => dtype a
  | .load _ t _ => t

/-- Truncation of a rational toward zero, the semantics of a C-style cast
from a floating value to an integer. -/
def truncQ (q : Rat) : Int := q.num.tdiv q.den

/-- Exact-arithmetic evaluation of the embedded scalar IR under a variable
environment.  Transcendental intrinsics and buffer loads have no exact
semantics and yield none; a cast to float is value-preserving and a cast
to int truncates toward zero; a compare-select produces 1 or 0. -/
def eval (σ : String → Rat) : Expr → Option Rat
  | .intImm v => some (v : Rat)
  | .floatImm v => some v
  | .varE s _ => some (σ s)
  | .cast .kFloat32 e => eval σ e
  | .cast .kInt32 e => (eval σ e).map (fun q => ((truncQ q : Int) : Rat))
  | .add a b => do pure ((← eval σ a) + (← eval σ b))
  | .sub a b => do pure ((← eval σ a) - (← eval σ b))
  | .mul a b => do pure ((← eval σ a) * (← eval σ b))
  | .div a b => do pure ((← eval σ a) / (← eval σ b))
  | .minE a b => do pure (min (← eval σ a) (← eval σ b))
  | .maxE a b => do pure (max (← eval σ a) (← eval σ b))
  | .cmpLT a b => do pure (if (← eval σ a) < (← eval σ b) then 1 else 0)
  | .ifThenElse c a b => do
      if (← eval σ c) ≠ 0 then eval σ a else eval σ b
  | .sqrtE _ => none
  | .rsqrtE _ => none
  | .powE _ _ => none
  | .load _ _ _ => none

/-- isOne from kernel.cpp: true exactly when the dimension expression is
the integer immediate 1. -/
def isOne : Expr → Bool
  | .intImm 1 => true
  | _ => false

/-- The loop body of broadcastShapes, operating on the reversed
(trailing-axis-first) dimension lists: when one side is exhausted the
other contributes its axis, and an aligned pair contributes b when a is
the constant 1 and a otherwise. -/
def broadcastRev : List Expr → List Expr → List Expr
  | [], bs => bs
  | a :: as, [] => a :: as
  | a :: as, b :: bs => (if isOne a then b else a) :: broadcastRev as bs

/-- broadcastShapes from kernel.cpp: walk both shapes from the trailing
axis, combine aligned pairs, then reverse the accumulated result back. -/
def broadcastShapes (a b : List Expr) : List Expr :=
  (broadcastRev a.reverse b.reverse).reverse

/-- TensorExprKernel::valueShape: the dimension list of the symbolic
tensor associated with a graph value, or the one-element shape 1 when the
value has no associated symbolic tensor. -/
def valueShape (t : Option (List Expr)) : List Expr :=
  match t with
  | none => [Expr.intImm 1]
  | some dims => dims

theorem broadcastRev_length (as bs : List Expr) :
    (broadcastRev as bs).length = max as.length bs.length := by
  induction as generalizing bs with
  | nil => simp [broadcastRev]
  | cons a as ih =>
      cases bs with
      | nil => simp [broadcastRev]
      | cons b bs =>
          simp [broadcastRev, ih bs, Nat.succ_max_succ]

theorem broadcastRev_getD_aligned (as bs : List Expr) (i : Nat) (d : Expr)
    (ha : i < as.length) (hb : i < bs.length) :
    (broadcastRev as bs).getD i d =
      if isOne (as.getD i d) then bs.getD i d else as.getD i d := by
  induction as generalizing bs i with
  | nil => simp at ha
  | cons a as ih =>
      cases bs with
      | nil => simp at hb
      | cons b bs =>
          cases i with
          | zero => simp [broadcastRev]
          | succ i =>
              simp only [broadcastRev, List.getD_cons_succ]
              exact ih bs i (by simpa using ha) (by simpa using hb)

theorem broadcastRev_getD_left (as bs : List Expr) (i : Nat) (d : Expr)
    (hb : bs.length ≤ i) :
    (broadcastRev as bs).getD i d = as.getD i d := by
  induction as generalizing bs i with
  | nil =>
      simp only [broadcastRev]
      cases bs with
      | nil => rfl
      | cons b bs =>
          rw [List.getD_eq_default _ _ hb]
          rfl
  | cons a as ih =>
      cases bs with
      | nil => rfl
      | cons b bs =>
          cases i with
          | zero => simp at hb
          | succ i =>
              simp only [broadcastRev, List.getD_cons_succ]
              exact ih bs i (by simpa using hb)

theorem broadcastRev_getD_right (as bs : List Expr) (i : Nat) (d : Expr)
    (ha : as.length ≤ i) :
    (broadcastRev as bs).getD i d = bs.getD i d := by
  induction as generalizing bs i with
  | nil => simp [broadcastRev]
  | cons a as ih =>
      cases bs with
      | nil =>
          simp only [broadcastRev]
          rw [List.getD_eq_default _ _ ha]
          rfl
      | cons b bs =>
          cases i with
          | zero => simp at ha
          | succ i =>
              simp only [broadcastRev, List.getD_cons_succ]
              exact ih bs i (by simpa using ha)

/-- Claim C1: for every pair of symbolic shapes A and B, broadcastShapes
has rank max(rank A, rank B); on every aligned trailing axis pair (a, b)
the result axis is b when a is the constant 1 and a otherwise; an operand
missing a trailing axis contributes the other operand shape axis there; a
value with no symbolic tensor is given shape [1] by valueShape; and the
shapes [5,1] and [3] broadcast to [5,3]. -/
theorem claimC1_broadcast (A B : List Expr) :
    (broadcastShapes A B).length = max A.length B.length
    ∧ (∀ i d, i < A.length → i < B.length →
        (broadcastShapes A B).reverse.getD i d =
          if isOne (A.reverse.getD i d) then B.reverse.getD i d
          else A.reverse.getD i d)
    ∧ (∀ i d, B.length ≤ i →
        (broadcastShapes A B).reverse.getD i d = A.reverse.getD i d)
    ∧ (∀ i d, A.length ≤ i →
        (broadcastShapes A B).reverse.getD i d = B.reverse.getD i d)
    ∧ valueShape none = [Expr.intImm 1]
    ∧ broadcastShapes [Expr.intImm 5, Expr.intImm 1] [Expr.intImm 3] =
        [Expr.intImm 5, Expr.intImm 3] := by
  refine ⟨?_, ?_, ?_, ?_, rfl, by decide⟩
  · simp [broadcastShapes, broadcastRev_length]
  · intro i d hA hB
    simp only [broadcastShapes, List.reverse_reverse]
    exact broadcastRev_getD_aligned A.reverse B.reverse i d
      (by simpa using hA) (by simpa using hB)
  · intro i d hB
    simp only [broadcastShapes, List.reverse_reverse]
    exact broadcastRev_getD_left A.reverse B.reverse i d (by simpa using hB)
  · intro i d hA
    simp only [broadcastShapes, List.reverse_reverse]
    exact broadcastRev_getD_right A.reverse B.reverse i d (by simpa using hA)

/-- Witness for claim C1: the aligned-pair rule and the tail rules applied
at concrete shapes [5,1] and [3]. -/
theorem claimC1_broadcast_witness :
    (broadcastShapes [Expr.intImm 5, Expr.intImm 1]
        [Expr.intImm 3]).reverse.getD 0 (Expr.intImm 0) =
      (if isOne (([Expr.intImm 5, Expr.intImm 1] : List Expr).reverse.getD 0
          (Expr.intImm 0))
        then ([Expr.intImm 3] : List Expr).reverse.getD 0 (Expr.intImm 0)
        else ([Expr.intImm 5, Expr.intImm 1] :
          List Expr).reverse.getD 0 (Expr.intImm 0))
    ∧ (broadcastShapes [Expr.intImm 5, Expr.intImm 1]
        [Expr.intImm 3]).reverse.getD 1 (Expr.intImm 0) =
      ([Expr.intImm 5, Expr.intImm 1] : List Expr).reverse.getD 1
        (Expr.intImm 0) :=
  ⟨(claimC1_broadcast [Expr.intImm 5, Expr.intImm 1] [Expr.intImm 3]).2.1 0
      (Expr.intImm 0) (by decide) (by decide),
    (claimC1_broadcast [Expr.intImm 5, Expr.intImm 1] [Expr.intImm 3]).2.2.1 1
      (Expr.intImm 0) (by decide)⟩

/-- Declared scalar type of a graph value (the subset of at::ScalarType
that texprType admits). -/
inductive ScalarTy
  | int
  | float
deriving DecidableEq, Repr

/-- True when an expression has floating-point dtype, as tested by the
any_of predicate in TensorExprKernel::promoteInputs. -/
def isFloatE (e : Expr) : Bool :=
  match dtype e with
  | .kFloat32 => true
  | .kInt32 => false

/-- The per-element action of promoteInputs: an integer-typed expression
is cast to float, any other expression is left alone. -/
def promoteOne (e : Expr) : Expr :=
  if dtype e = Dtype.kInt32 then Expr.cast Dtype.kFloat32 e else e

/-- TensorExprKernel::promoteInputs: when any operand is float-typed,
cast every integer-typed operand to float; otherwise leave the operand
list untouched. -/
def promoteInputs (inputs : List Expr) : List Expr :=
  if inputs.any isFloatE then inputs.map promoteOne else inputs

/-- TensorExprKernel::demoteOutput: cast the computed expression back to
integer exactly when it is float-typed and the declared output scalar
type is integer. -/
def demoteOutput (e : Expr) (outTy : ScalarTy) : Expr :=
  if dtype e = Dtype.kFloat32 ∧ outTy = ScalarTy.int then
    Expr.cast Dtype.kInt32 e
  else e

/-- TensorExprKernel::ComputeTwoOperand, per output element: promote the
two operand expressions, apply the template, demote to the declared
output type. -/
def computeTwoOperand (template : Expr → Expr → Expr) (a b : Expr)
    (outTy : ScalarTy) : Expr :=
  demoteOutput
    (template ((promoteInputs [a, b]).getD 0 a)
      ((promoteInputs [a, b]).getD 1 b))
    outTy

/-- TensorExprKernel::ComputeTwoOperandWithAlpha, per output element: the
trailing blend-weight operand is multiplied into the second operand
before the template combines it with the first. -/
def computeTwoOperandWithAlpha (template : Expr → Expr → Expr)
    (a b alpha : Expr) (outTy : ScalarTy) : Expr :=
  demoteOutput
    (template ((promoteInputs [a, b, alpha]).getD 0 a)
      (Expr.mul ((promoteInputs [a, b, alpha]).getD 2 alpha)
        ((promoteInputs [a, b, alpha]).getD 1 b)))
    outTy

/-- The arity-two templates used through the generic combinators in
ComputeValue (arithmetic and min/max). -/
inductive BinOp
  | addB
  | subB
  | mulB
  | divB
  | minB
  | maxB
deriving DecidableEq, Repr

/-- The expression each binary template builds from its two promoted
operand expressions. -/
def BinOp.apply : BinOp → Expr → Expr → Expr
  | .addB, a, b => .add a b
  | .subB, a, b => .sub a b
  | .mulB, a, b => .mul a b
  | .divB, a, b => .div a b
  | .minB, a, b => .minE a b
  | .maxB, a, b => .maxE a b

/-- Exact-arithmetic meaning of each binary template. -/
def BinOp.sem : BinOp → Rat → Rat → Rat
  | .addB, x, y => x + y
  | .subB, x, y => x - y
  | .mulB, x, y => x * y
  | .divB, x, y => x / y
  | .minB, x, y => min x y
  | .maxB, x, y => max x y

/-- True when every node of the expression is integer-typed, so that
evaluating it involves no floating-point value anywhere. -/
def allInt : Expr → Bool
  | .intImm _ => true
  | .floatImm _ => false
  | .varE _ .kInt32 => true
  | .varE _ .kFloat32 => false
  | .cast .kInt32 e => allInt e
  | .cast .kFloat32 _ => false
  | .add a b | .sub a b | .mul a b | .div a b | .minE a b | .maxE a b
  | .cmpLT a b => allInt a && allInt b
  | .ifThenElse c a b => allInt c && allInt a && allInt b
  | .sqrtE _ => false
  | .rsqrtE _ => false
  | .powE _ _ => false
  | .load _ .kInt32 _ => true
  | .load _ .kFloat32 _ => false

/-- The constant kinds a graph constant can hold at the points the kernel
reads one (TensorExprKernel::constant). -/
inductive IVal
  | iNone
  | iDouble (q : Rat)
  | iInt (z : Int)
  | iOther
deriving DecidableEq, Repr

/-- TensorExprKernel::constant on a prim::Constant node: doubles and ints
become immediates, the None sentinel becomes the integer immediate 0 as a
placeholder, and every other payload is a fatal unhandled-constant error. -/
def constantE : IVal → Except String Expr
  | .iDouble q => .ok (.floatImm q)
  | .iInt z => .ok (.intImm z)
  | .iNone => .ok (.intImm 0)
  | .iOther => .error "Unhandled constant datatype"

/-- A graph operand as the clamp lowering inspects it: either a
prim::Constant node holding a literal, or any other producing node. -/
inductive Operand
  | constOp (v : IVal)
  | graphOp
deriving DecidableEq, Repr

/-- The structural check the aten::clamp case performs on a min or max
operand: node kind prim::Constant and literal payload None. -/
def isNoneOperand : Operand → Bool
  | .constOp .iNone => true
  | _ => false

/-- The clamp template from the aten::clamp case, specialized by the two
compile-time flags computed from the literal operands. -/
def lowerClampTemplate (noMin noMax : Bool) (x mn mx : Expr) : Expr :=
  if noMin && noMax then x
  else if noMin then .minE x mx
  else if noMax then .maxE x mn
  else .maxE (.minE x mx) mn

/-- The aten::clamp lowering: compute the two absence flags from the min
and max operands of the node, then build the specialized template. -/
def lowerClamp (minOp maxOp : Operand) (x mn mx : Expr) : Expr :=
  lowerClampTemplate (isNoneOperand minOp) (isNoneOperand maxOp) x mn mx

/-- The aten::pow template from ComputeValue: strength-reduce a literal
float exponent first, then an integer literal under a cast, and otherwise
fall back to the general power intrinsic. -/
def lowerPow (lhs rhs : Expr) : Expr :=
  match rhs with
  | .floatImm imm =>
      if imm = 1 then lhs
      else if imm = 2 then .mul lhs lhs
      else if imm = 3 then .mul (.mul lhs lhs) lhs
      else if imm = 4 then .mul (.mul lhs lhs) (.mul lhs lhs)
      else if imm = 1 / 2 then .sqrtE lhs
      else if imm = 0 then .floatImm 1
      else if imm = -(1 / 2) then .rsqrtE lhs
      else if imm = -1 then .div (.floatImm 1) lhs
      else if imm = -2 then .div (.floatImm 1) (.mul lhs lhs)
      else .powE lhs (.floatImm imm)
  | .cast t (.intImm z) =>
      if z = 1 then lhs
      else if z = 2 then .mul lhs lhs
      else if z = 3 then .mul (.mul lhs lhs) lhs
      else if z = 4 then .mul (.mul lhs lhs) (.mul lhs lhs)
      else if z = 0 then .floatImm 1
      else if z = -1 then .div (.floatImm 1) lhs
      else if z = -2 then .div (.floatImm 1) (.mul lhs lhs)
      else .powE lhs (.cast t (.intImm z))
  | r => .powE lhs r

/-- True when the expression contains the general power intrinsic. -/
def usesPow : Expr → Bool
  | .powE _ _ => true
  | .cast _ e | .sqrtE e | .rsqrtE e | .load _ _ e => usesPow e
  | .add a b | .sub a b | .mul a b | .div a b | .minE a b | .maxE a b
  | .cmpLT a b => usesPow a || usesPow b
  | .ifThenElse c a b => usesPow c || usesPow a || usesPow b
  | .intImm _ => false
  | .floatImm _ => false
  | .varE _ _ => false

theorem isFloatE_eq_true (e : Expr) :
    isFloatE e = true ↔ dtype e = Dtype.kFloat32 := by
  unfold isFloatE
  cases h : dtype e <;> simp

theorem dtype_promoteOne (e : Expr) :
    dtype (promoteOne e) = Dtype.kFloat32 := by
  unfold promoteOne
  cases h : dtype e with
  | kInt32 => simp [dtype]
  | kFloat32 => simp [h]

theorem eval_promoteOne (σ : String → Rat) (e : Expr) :
    eval σ (promoteOne e) = eval σ e := by
  unfold promoteOne
  split
  · rfl
  · rfl

theorem promoteInputs_of_int (inputs : List Expr)
    (h : ∀ e ∈ inputs, dtype e = Dtype.kInt32) :
    promoteInputs inputs = inputs := by
  unfold promoteInputs
  rw [if_neg]
  intro hc
  obtain ⟨e, he, hf⟩ := List.any_eq_true.mp hc
  rw [isFloatE_eq_true e, h e he] at hf
  cases hf

theorem promoteInputs_all_float (inputs : List Expr)
    (h : inputs.any isFloatE = true) :
    ∀ e ∈ promoteInputs inputs, dtype e = Dtype.kFloat32 := by
  unfold promoteInputs
  rw [if_pos h]
  intro e he
  obtain ⟨x, _, hx⟩ := List.mem_map.mp he
  rw [← hx]
  exact dtype_promoteOne x

theorem promoteInputs_pair_float (a b : Expr)
    (h : dtype a = Dtype.kFloat32 ∨ dtype b = Dtype.kFloat32) :
    promoteInputs [a, b] = [promoteOne a, promoteOne b] := by
  unfold promoteInputs
  rw [if_pos]
  · rfl
  · rcases h with h | h
    · simp [List.any, isFloatE_eq_true, h]
    · simp [List.any, isFloatE_eq_true, h]

theorem apply_allInt (op : BinOp) (a b : Expr) :
    allInt (op.apply a b) = (allInt a && allInt b) := by
  cases op <;> rfl

theorem apply_dtype_int (op : BinOp) (a b : Expr)
    (ha : dtype a = Dtype.kInt32) (hb : dtype b = Dtype.kInt32) :
    dtype (op.apply a b) = Dtype.kInt32 := by
  cases op <;> simp [BinOp.apply, dtype, ha, hb]

theorem apply_dtype_float (op : BinOp) (a b : Expr)
    (h : dtype a = Dtype.kFloat32 ∨ dtype b = Dtype.kFloat32) :
    dtype (op.apply a b) = Dtype.kFloat32 := by
  cases op <;> simp [BinOp.apply, dtype, h]

theorem eval_apply (op : BinOp) (a b : Expr) (σ : String → Rat)
    (va vb : Rat) (ha : eval σ a = some va) (hb : eval σ b = some vb) :
    eval σ (op.apply a b) = some (op.sem va vb) := by
  cases op <;> simp [BinOp.apply, BinOp.sem, eval, ha, hb]

theorem dtype_of_allInt (e : Expr) (h : allInt e = true) :
    dtype e = Dtype.kInt32 := by
  induction e with
  | intImm v => rfl
  | floatImm v => simp [allInt] at h
  | varE s t =>
      cases t with
      | kInt32 => rfl
      | kFloat32 => simp [allInt] at h
  | cast t e ih =>
      cases t with
      | kInt32 => rfl
      | kFloat32 => simp [allInt] at h
  | add a b iha ihb =>
      simp only [allInt, Bool.and_eq_true] at h
      simp [dtype, iha h.1, ihb h.2]
  | sub a b iha ihb =>
      simp only [allInt, Bool.and_eq_true] at h
      simp [dtype, iha h.1, ihb h.2]
  | mul a b iha ihb =>
      simp only [allInt, Bool.and_eq_true] at h
      simp [dtype, iha h.1, ihb h.2]
  | div a b iha ihb =>
      simp only [allInt, Bool.and_eq_true] at h
      simp [dtype, iha h.1, ihb h.2]
  | minE a b iha ihb =>
      simp only [allInt, Bool.and_eq_true] at h
      simp [dtype, iha h.1, ihb h.2]
  | maxE a b iha ihb =>
      simp only [allInt, Bool.and_eq_true] at h
      simp [dtype, iha h.1, ihb h.2]
  | cmpLT a b iha ihb => rfl
  | ifThenElse c a b ihc iha ihb =>
      simp only [allInt, Bool.and_eq_true] at h
      simpa [dtype] using iha h.1.2
  | sqrtE e ih => simp [allInt] at h
  | rsqrtE e ih => simp [allInt] at h
  | powE a b iha ihb => simp [allInt] at h
  | load buf t idx ih =>
      cases t with
      | kInt32 => rfl
      | kFloat32 => simp [allInt] at h

theorem cast_ne_self (t : Dtype) (e : Expr) : Expr.cast t e ≠ e := by
  intro h
  have h2 := congrArg sizeOf h
  simp only [Expr.cast.sizeOf_spec] at h2
  omega

theorem demote_noop_of_int (e : Expr) (outTy : ScalarTy)
    (h : dtype e = Dtype.kInt32) : demoteOutput e outTy = e := by
  unfold demoteOutput
  rw [if_neg]
  intro hc
  rw [h] at hc
  cases hc.1

theorem demote_cast_of_float_int (e : Expr)
    (h : dtype e = Dtype.kFloat32) :
    demoteOutput e ScalarTy.int = Expr.cast Dtype.kInt32 e :=
  if_pos ⟨h, rfl⟩

theorem demote_noop_of_float_out (e : Expr) :
    demoteOutput e ScalarTy.float = e := by
  unfold demoteOutput
  rw [if_neg]
  intro hc
  cases hc.2

/-- Claim C3: the aten::pow lowering strength-reduces literal exponents.
pow(x, 2.0) becomes x*x (equal to x*x for every evaluable x) without the
power intrinsic; 0.5 and -0.5 become sqrt and rsqrt; 0.0 becomes the
constant 1; -1.0 and -2.0 become reciprocal forms; exponents 1..4, float
literal or integer literal under a cast, become repeated multiplication;
every other exponent (such as 2.7 or a non-literal) falls back to the
general power intrinsic. -/
theorem claimC3_pow (lhs : Expr) :
    lowerPow lhs (.floatImm 2) = .mul lhs lhs
    ∧ (∀ σ x, eval σ lhs = some x →
        eval σ (lowerPow lhs (.floatImm 2)) = some (x * x))
    ∧ (usesPow lhs = false → usesPow (lowerPow lhs (.floatImm 2)) = false)
    ∧ lowerPow lhs (.floatImm (1 / 2)) = .sqrtE lhs
    ∧ lowerPow lhs (.floatImm (-(1 / 2))) = .rsqrtE lhs
    ∧ lowerPow lhs (.floatImm 0) = .floatImm 1
    ∧ lowerPow lhs (.floatImm (-1)) = .div (.floatImm 1) lhs
    ∧ lowerPow lhs (.floatImm (-2)) = .div (.floatImm 1) (.mul lhs lhs)
    ∧ lowerPow lhs (.floatImm 1) = lhs
    ∧ lowerPow lhs (.floatImm 3) = .mul (.mul lhs lhs) lhs
    ∧ lowerPow lhs (.floatImm 4) = .mul (.mul lhs lhs) (.mul lhs lhs)
    ∧ (∀ t, lowerPow lhs (.cast t (.intImm 1)) = lhs
        ∧ lowerPow lhs (.cast t (.intImm 2)) = .mul lhs lhs
        ∧ lowerPow lhs (.cast t (.intImm 3)) = .mul (.mul lhs lhs) lhs
        ∧ lowerPow lhs (.cast t (.intImm 4)) =
            .mul (.mul lhs lhs) (.mul lhs lhs)
        ∧ lowerPow lhs (.cast t (.intImm 0)) = .floatImm 1
        ∧ lowerPow lhs (.cast t (.intImm (-1))) = .div (.floatImm 1) lhs
        ∧ lowerPow lhs (.cast t (.intImm (-2))) =
            .div (.floatImm 1) (.mul lhs lhs))
    ∧ lowerPow lhs (.floatImm (27 / 10)) = .powE lhs (.floatImm (27 / 10))
    ∧ (∀ s t, lowerPow lhs (.varE s t) = .powE lhs (.varE s t))
    ∧ (∀ t z, z ≠ 1 → z ≠ 2 → z ≠ 3 → z ≠ 4 → z ≠ 0 → z ≠ -1 → z ≠ -2 →
        lowerPow lhs (.cast t (.intImm z)) =
          .powE lhs (.cast t (.intImm z))) := by
  have h2 : lowerPow lhs (.floatImm 2) = .mul lhs lhs := by
    norm_num [lowerPow]
  refine ⟨h2, ?_, ?_, ?_, ?_, ?_, ?_, ?_, ?_, ?_, ?_, ?_, ?_, ?_, ?_⟩
  · intro σ x hx
    rw [h2]
    simp [eval, hx]
  · intro h
    rw [h2]
    simp [usesPow, h]
  · norm_num [lowerPow]
  · norm_num [lowerPow]
  · norm_num [lowerPow]
  · norm_num [lowerPow]
  · norm_num [lowerPow]
  · norm_num [lowerPow]
  · norm_num [lowerPow]
  · norm_num [lowerPow]
  · intro t
    refine ⟨?_, ?_, ?_, ?_, ?_, ?_, ?_⟩ <;> norm_num [lowerPow]
  · norm_num [lowerPow]
  · intro s t
    rfl
  · intro t z h1 h2c h3 h4 h0 hm1 hm2
    simp [lowerPow, h1, h2c, h3, h4, h0, hm1, hm2]

/-- Witness for claim C3: the strength-reduced square evaluates to 9 at
x = 3 and contains no power intrinsic. -/
theorem claimC3_pow_witness :
    eval (fun _ => (3 : Rat))
        (lowerPow (Expr.varE "x" Dtype.kFloat32) (.floatImm 2)) =
      some (3 * 3)
    ∧ usesPow (lowerPow (Expr.varE "x" Dtype.kFloat32) (.floatImm 2)) =
        false :=
  ⟨(claimC3_pow (Expr.varE "x" Dtype.kFloat32)).2.1 (fun _ => (3 : Rat)) 3
      rfl,
    (claimC3_pow (Expr.varE "x" Dtype.kFloat32)).2.2.1 rfl⟩

/-- Claim C4: the aten::clamp lowering specializes at compile time on
whether the min and max literal operands are the None sentinel: both
absent gives the identity, an absent min gives min(x, M) (the value of
clamp with no lower bound), an absent max gives max(x, m), and both
present give the two-sided form; the choice is a structural function of
the literal operands, producing a branch-free specialized expression. -/
theorem claimC4_clamp (x mn mx : Expr) :
    lowerClamp (.constOp .iNone) (.constOp .iNone) x mn mx = x
    ∧ (∀ maxOp, isNoneOperand maxOp = false →
        lowerClamp (.constOp .iNone) maxOp x mn mx = .minE x mx)
    ∧ (∀ σ vx vm, eval σ x = some vx → eval σ mx = some vm →
        eval σ (lowerClamp (.constOp .iNone) .graphOp x mn mx) =
          some (min vx vm))
    ∧ (∀ minOp, isNoneOperand minOp = false →
        lowerClamp minOp (.constOp .iNone) x mn mx = .maxE x mn)
    ∧ (∀ minOp maxOp, isNoneOperand minOp = false →
        isNoneOperand maxOp = false →
        lowerClamp minOp maxOp x mn mx = .maxE (.minE x mx) mn) := by
  refine ⟨rfl, ?_, ?_, ?_, ?_⟩
  · intro maxOp h
    unfold lowerClamp
    rw [show isNoneOperand (Operand.constOp IVal.iNone) = true from rfl, h]
    rfl
  · intro σ vx vm hx hm
    simp [lowerClamp, lowerClampTemplate, isNoneOperand, eval, hx, hm]
  · intro minOp h
    unfold lowerClamp
    rw [show isNoneOperand (Operand.constOp IVal.iNone) = true from rfl, h]
    rfl
  · intro minOp maxOp hmin hmax
    unfold lowerClamp
    rw [hmin, hmax]
    rfl

/-- Witness for claim C4: one-sided clamp with absent min at concrete
values, where min(7, 5) = 5. -/
theorem claimC4_clamp_witness :
    lowerClamp (.constOp .iNone) .graphOp (Expr.varE "x" Dtype.kFloat32)
        (Expr.intImm 0) (Expr.floatImm 5) =
      .minE (Expr.varE "x" Dtype.kFloat32) (Expr.floatImm 5)
    ∧ eval (fun _ => (7 : Rat))
        (lowerClamp (.constOp .iNone) .graphOp
          (Expr.varE "x" Dtype.kFloat32) (Expr.intImm 0)
          (Expr.floatImm 5)) =
      some (min 7 5) :=
  ⟨(claimC4_clamp (Expr.varE "x" Dtype.kFloat32) (Expr.intImm 0)
        (Expr.floatImm 5)).2.1 .graphOp rfl,
    (claimC4_clamp (Expr.varE "x" Dtype.kFloat32) (Expr.intImm 0)
        (Expr.floatImm 5)).2.2.1 (fun _ => (7 : Rat)) 7 5 rfl rfl⟩

/-- Claim C5: through the generic combinators, if any operand is
float-typed then every integer-typed operand is cast to float and the
computed result type is float; if every operand is integer-typed no
promotion occurs and the computed result stays purely integer; and the
result is demoted by a truncating cast to integer exactly when the
declared output type is integer and the computed type is float. -/
theorem claimC5_promotion :
    (∀ inputs : List Expr, inputs.any isFloatE = true →
        ∀ e ∈ promoteInputs inputs, dtype e = Dtype.kFloat32)
    ∧ (∀ inputs : List Expr, (∀ e ∈ inputs, dtype e = Dtype.kInt32) →
        promoteInputs inputs = inputs)
    ∧ (∀ (op : BinOp) (a b : Expr),
        dtype a = Dtype.kFloat32 ∨ dtype b = Dtype.kFloat32 →
        computeTwoOperand op.apply a b ScalarTy.float =
            op.apply (promoteOne a) (promoteOne b)
          ∧ dtype (op.apply (promoteOne a) (promoteOne b)) =
              Dtype.kFloat32)
    ∧ (∀ (op : BinOp) (a b : Expr),
        dtype a = Dtype.kInt32 → dtype b = Dtype.kInt32 →
        computeTwoOperand op.apply a b ScalarTy.int = op.apply a b
          ∧ dtype (op.apply a b) = Dtype.kInt32)
    ∧ (∀ (op : BinOp) (a b : Expr), allInt a = true → allInt b = true →
        allInt (computeTwoOperand op.apply a b ScalarTy.int) = true)
    ∧ (∀ e outTy, demoteOutput e outTy = Expr.cast Dtype.kInt32 e ↔
        outTy = ScalarTy.int ∧ dtype e = Dtype.kFloat32)
    ∧ (∀ σ e q, eval σ e = some q →
        eval σ (Expr.cast Dtype.kInt32 e) = some ((truncQ q : Int) : Rat))
    ∧ (∀ (op : BinOp) (a b : Expr) (σ : String → Rat) (va vb : Rat),
        dtype a = Dtype.kFloat32 ∨ dtype b = Dtype.kFloat32 →
        eval σ a = some va → eval σ b = some vb →
        eval σ (computeTwoOperand op.apply a b ScalarTy.int) =
          some ((truncQ (op.sem va vb) : Int) : Rat)) := by
  refine ⟨promoteInputs_all_float, promoteInputs_of_int, ?_, ?_, ?_, ?_,
    ?_, ?_⟩
  · intro op a b h
    have hf := apply_dtype_float op (promoteOne a) (promoteOne b)
      (Or.inl (dtype_promoteOne a))
    refine ⟨?_, hf⟩
    unfold computeTwoOperand
    rw [promoteInputs_pair_float a b h]
    simp only [List.getD_cons_zero, List.getD_cons_succ]
    exact demote_noop_of_float_out _
  · intro op a b ha hb
    have hall : ∀ e ∈ [a, b], dtype e = Dtype.kInt32 := by
      intro e he
      simp only [List.mem_cons, List.not_mem_nil, or_false] at he
      rcases he with rfl | rfl
      · exact ha
      · exact hb
    have hd := apply_dtype_int op a b ha hb
    refine ⟨?_, hd⟩
    unfold computeTwoOperand
    rw [promoteInputs_of_int _ hall]
    simp only [List.getD_cons_zero, List.getD_cons_succ]
    exact demote_noop_of_int _ _ hd
  · intro op a b ha hb
    have hda := dtype_of_allInt a ha
    have hdb := dtype_of_allInt b hb
    have hall : ∀ e ∈ [a, b], dtype e = Dtype.kInt32 := by
      intro e he
      simp only [List.mem_cons, List.not_mem_nil, or_false] at he
      rcases he with rfl | rfl
      · exact hda
      · exact hdb
    unfold computeTwoOperand
    rw [promoteInputs_of_int _ hall]
    simp only [List.getD_cons_zero, List.getD_cons_succ]
    rw [demote_noop_of_int _ _ (apply_dtype_int op a b hda hdb),
      apply_allInt, ha, hb]
    rfl
  · intro e outTy
    constructor
    · intro h
      by_cases hc : dtype e = Dtype.kFloat32 ∧ outTy = ScalarTy.int
      · exact ⟨hc.2, hc.1⟩
      · unfold demoteOutput at h
        rw [if_neg hc] at h
        exact absurd h.symm (cast_ne_self _ _)
    · intro ⟨h1, h2⟩
      subst h1
      exact demote_cast_of_float_int e h2
  · intro σ e q hq
    simp [eval, hq]
  · intro op a b σ va vb h ha hb
    have hev : eval σ (op.apply (promoteOne a) (promoteOne b)) =
        some (op.sem va vb) :=
      eval_apply op _ _ σ va vb
        (by rw [eval_promoteOne]; exact ha)
        (by rw [eval_promoteOne]; exact hb)
    unfold computeTwoOperand
    rw [promoteInputs_pair_float a b h]
    simp only [List.getD_cons_zero, List.getD_cons_succ]
    rw [demote_cast_of_float_int _
      (apply_dtype_float op _ _ (Or.inl (dtype_promoteOne a)))]
    simp [eval, hev]

/-- Witness for claim C5: adding the integer 3 and the float 5/2 through
the generic combinator with a declared integer output truncates the float
sum 11/2 to the integer 5. -/
theorem claimC5_promotion_witness :
    eval (fun s => if s = "a" then (3 : Rat) else 5 / 2)
        (computeTwoOperand BinOp.addB.apply (Expr.varE "a" Dtype.kInt32)
          (Expr.varE "b" Dtype.kFloat32) ScalarTy.int) =
      some ((truncQ (BinOp.addB.sem 3 (5 / 2)) : Int) : Rat) :=
  claimC5_promotion.2.2.2.2.2.2.2 BinOp.addB (Expr.varE "a" Dtype.kInt32)
    (Expr.varE "b" Dtype.kFloat32)
    (fun s => if s = "a" then (3 : Rat) else 5 / 2) 3 (5 / 2)
    (Or.inr rfl) (by simp [eval]) (by simp [eval])

/-- Claim C9: the constant builder lowers a None graph constant to the
integer immediate 0 instead of failing with the unhandled-constant error,
so an operator consuming a None literal (here add with a None alpha)
silently computes with the value 0; genuinely unhandled constant payloads
do raise the error. -/
theorem claimC9_none_constant :
    constantE .iNone = .ok (.intImm 0)
    ∧ (∀ q, constantE (.iDouble q) = .ok (.floatImm q))
    ∧ (∀ z, constantE (.iInt z) = .ok (.intImm z))
    ∧ constantE .iOther = .error "Unhandled constant datatype"
    ∧ (∀ (σ : String → Rat) (x y : Expr) (vx vy : Rat),
        dtype x = Dtype.kInt32 → dtype y = Dtype.kInt32 →
        eval σ x = some vx → eval σ y = some vy →
        eval σ (computeTwoOperandWithAlpha Expr.add x y (Expr.intImm 0)
          ScalarTy.int) = some vx) := by
  refine ⟨rfl, fun q => rfl, fun z => rfl, rfl, ?_⟩
  intro σ x y vx vy hx hy hex hey
  have hall : ∀ e ∈ [x, y, Expr.intImm 0], dtype e = Dtype.kInt32 := by
    intro e he
    simp only [List.mem_cons, List.not_mem_nil, or_false] at he
    rcases he with rfl | rfl | rfl
    · exact hx
    · exact hy
    · rfl
  have hd : dtype (Expr.add x (Expr.mul (Expr.intImm 0) y)) =
      Dtype.kInt32 := by
    simp [dtype, hx, hy]
  unfold computeTwoOperandWithAlpha
  rw [promoteInputs_of_int _ hall]
  simp only [List.getD_cons_zero, List.getD_cons_succ]
  rw [demote_noop_of_int _ _ hd]
  simp [eval, hex, hey]

/-- Witness for claim C9: add with a None alpha operand at x = 4, y = 6
produces 4 (the alpha contribution is the placeholder 0). -/
theorem claimC9_none_constant_witness :
    eval (fun s => if s = "x" then (4 : Rat) else 6)
        (computeTwoOperandWithAlpha Expr.add (Expr.varE "x" Dtype.kInt32)
          (Expr.varE "y" Dtype.kInt32) (Expr.intImm 0) ScalarTy.int) =
      some 4 :=
  claimC9_none_constant.2.2.2.2 (fun s => if s = "x" then (4 : Rat) else 6)
    (Expr.varE "x" Dtype.kInt32) (Expr.varE "y" Dtype.kInt32) 4 6 rfl rfl
    (by simp [eval]) (by simp [eval])

/-- A registered dynamic-size or stride formal parameter of a kernel
argument: the owning axis index and the variable name. -/
structure ShapeArg where
  idx : Nat
  var : String
deriving DecidableEq, Repr

/-- Loop state of createInputIndexExpr: the running stride expression,
the accumulated index expression, and the registered size and stride
parameters. -/
structure InputIndexState where
  stride : Expr
  index : Expr
  sizeArgs : List ShapeArg
  strideArgs : List ShapeArg
deriving DecidableEq, Repr

/-- One iteration of the loop in createInputIndexExpr, at loop counter i
with n the last axis position, processing axis n - i: the source consults
the contiguity flag at position i (not at the axis being processed),
creating a named stride variable that replaces the running stride and is
recorded under axis n - i; then the size of axis n - i is resolved (a
negative value means a dynamic size, fatal when its sentinel has no
registered variable); then the index accumulates axes[n-i] times the
running stride and the running stride is multiplied by the size. -/
def inputIndexStep (bufName : String) (axes : List Expr) (sizes : List Int)
    (contiguity : List Bool) (sizeVars : List (Int × String)) (n : Nat)
    (acc : Option InputIndexState) (i : Nat) : Option InputIndexState :=
  match acc with
  | none => none
  | some st0 =>
      let st :=
        if contiguity.getD i true = false then
          { st0 with
              strideArgs :=
                st0.strideArgs ++
                  [⟨n - i, "stride_" ++ bufName ++ "_" ++ toString i⟩],
              stride :=
                Expr.varE ("stride_" ++ bufName ++ "_" ++ toString i)
                  Dtype.kInt32 }
        else st0
      let sizeVal := sizes.getD (n - i) 0
      if sizeVal < 0 then
        match sizeVars.lookup sizeVal with
        | none => none
        | some v =>
            some { st with
                sizeArgs := st.sizeArgs ++ [⟨n - i, v⟩],
                index :=
                  Expr.add st.index
                    (Expr.mul (axes.getD (n - i) (Expr.intImm 0)) st.stride),
                stride := Expr.mul st.stride (Expr.varE v Dtype.kInt32) }
      else
        some { st with
            index :=
              Expr.add st.index
                (Expr.mul (axes.getD (n - i) (Expr.intImm 0)) st.stride),
            stride := Expr.mul st.stride (Expr.intImm sizeVal) }

/-- TensorExprKernel::createInputIndexExpr: starting from running stride 1
and index 0, iterate the loop counter i over the axes from the innermost
axis outward, producing the element index expression and the registered
size and stride kernel arguments (none on the fatal unresolved-size
path). -/
def createInputIndexExpr (bufName : String) (axes : List Expr)
    (sizes : List Int) (contiguity : List Bool)
    (sizeVars : List (Int × String)) : Option InputIndexState :=
  (List.range axes.length).foldl
    (inputIndexStep bufName axes sizes contiguity sizeVars
      (axes.length - 1))
    (some { stride := Expr.intImm 1, index := Expr.intImm 0,
            sizeArgs := [], strideArgs := [] })

/-- The stride-indexing rule as the specification words it, for
comparison with the source: identical to inputIndexStep except that the
contiguity flag consulted at the step for axis n - i is the flag of that
same axis n - i, and the fresh stride variable is named after that
axis. -/
def specInputIndexStep (bufName : String) (axes : List Expr)
    (sizes : List Int) (contiguity : List Bool)
    (sizeVars : List (Int × String)) (n : Nat)
    (acc : Option InputIndexState) (i : Nat) : Option InputIndexState :=
  match acc with
  | none => none
  | some st0 =>
      let st :=
        if contiguity.getD (n - i) true = false then
          { st0 with
              strideArgs :=
                st0.strideArgs ++
                  [⟨n - i,
                    "spec_stride_" ++ bufName ++ "_" ++ toString (n - i)⟩],
              stride :=
                Expr.varE
                  ("spec_stride_" ++ bufName ++ "_" ++ toString (n - i))
                  Dtype.kInt32 }
        else st0
      let sizeVal := sizes.getD (n - i) 0
      if sizeVal < 0 then
        match sizeVars.lookup sizeVal with
        | none => none
        | some v =>
            some { st with
                sizeArgs := st.sizeArgs ++ [⟨n - i, v⟩],
                index :=
                  Expr.add st.index
                    (Expr.mul (axes.getD (n - i) (Expr.intImm 0)) st.stride),
                stride := Expr.mul st.stride (Expr.varE v Dtype.kInt32) }
      else
        some { st with
            index :=
              Expr.add st.index
                (Expr.mul (axes.getD (n - i) (Expr.intImm 0)) st.stride),
            stride := Expr.mul st.stride (Expr.intImm sizeVal) }

/-- The whole stride-indexing rule as the specification words it, for
comparison with createInputIndexExpr. -/
def specInputIndexExpr (bufName : String) (axes : List Expr)
    (sizes : List Int) (contiguity : List Bool)
    (sizeVars : List (Int × String)) : Option InputIndexState :=
  (List.range axes.length).foldl
    (specInputIndexStep bufName axes sizes contiguity sizeVars
      (axes.length - 1))
    (some { stride := Expr.intImm 1, index := Expr.intImm 0,
            sizeArgs := [], strideArgs := [] })

/-- Runtime environment for the stride-bug scenario: a tensor of shape
[2,3] with actual strides [5,1], read at axis values r = 1, c = 0; every
stride variable is bound to the actual stride of the axis it was
registered for, so stride_t_0 (registered for axis 1 by the source) gets
strides[1] = 1 and spec_stride_t_0 (registered for axis 0 by the rule as
the claim words it) gets strides[0] = 5. -/
def envStrideBug : String → Rat := fun s =>
  if s = "i0" then 1
  else if s = "i1" then 0
  else if s = "stride_t_0" then 1
  else 5

/-- Environment for the fully contiguous [2,3] check at r = 1, c = 2. -/
def envContig : String → Rat := fun s =>
  if s = "i0" then 1 else if s = "i1" then 2 else 0

/-- The two axis variables of the [2,3] input in the C2 scenario. -/
def axesRC : List Expr :=
  [Expr.varE "i0" Dtype.kInt32, Expr.varE "i1" Dtype.kInt32]

/-- Index expression the source builds for shape [2,3] with contiguity
flags [false, true]: the stride variable multiplies the column axis and
scales the row step. -/
def codeIndexRC : Expr :=
  Expr.add
    (Expr.add (Expr.intImm 0)
      (Expr.mul (Expr.varE "i1" Dtype.kInt32)
        (Expr.varE "stride_t_0" Dtype.kInt32)))
    (Expr.mul (Expr.varE "i0" Dtype.kInt32)
      (Expr.mul (Expr.varE "stride_t_0" Dtype.kInt32) (Expr.intImm 3)))

/-- Final running stride of the source for that scenario. -/
def codeStrideRC : Expr :=
  Expr.mul
    (Expr.mul (Expr.varE "stride_t_0" Dtype.kInt32) (Expr.intImm 3))
    (Expr.intImm 2)

/-- Index expression the rule as claimed builds for the same scenario:
the stride variable of the row axis multiplies the row axis step. -/
def specIndexRC : Expr :=
  Expr.add
    (Expr.add (Expr.intImm 0)
      (Expr.mul (Expr.varE "i1" Dtype.kInt32) (Expr.intImm 1)))
    (Expr.mul (Expr.varE "i0" Dtype.kInt32)
      (Expr.varE "spec_stride_t_0" Dtype.kInt32))

/-- Final running stride of the rule as claimed for that scenario. -/
def specStrideRC : Expr :=
  Expr.mul (Expr.varE "spec_stride_t_0" Dtype.kInt32) (Expr.intImm 2)

/-- Index expression the source builds for a fully contiguous [2,3]
input. -/
def contigIndexRC : Expr :=
  Expr.add
    (Expr.add (Expr.intImm 0)
      (Expr.mul (Expr.varE "i1" Dtype.kInt32) (Expr.intImm 1)))
    (Expr.mul (Expr.varE "i0" Dtype.kInt32)
      (Expr.mul (Expr.intImm 1) (Expr.intImm 3)))

/-- Final running stride of the source for the contiguous [2,3] input. -/
def contigStrideRC : Expr :=
  Expr.mul (Expr.mul (Expr.intImm 1) (Expr.intImm 3)) (Expr.intImm 2)

/-- Claim C2: the index expression accumulates axis times running stride
from the innermost axis outward (for a contiguous [2,3] tensor the index
at (1,2) evaluates to 1*3+2 = 5), but the claim that a stride variable
replaces the running stride exactly at the axes whose contiguity flag is
false fails: with contiguity flags [false, true] (row axis flagged
non-contiguous) the source records its stride parameter for axis 1,
whose flag is true, and the index it builds evaluates to 3 under the
actual strides [5,1], while the rule as the claim words it records the
parameter for axis 0 and evaluates to 5. -/
theorem claimC2_stride_flag_bug :
    createInputIndexExpr "t" axesRC [2, 3] [false, true] [] =
      some ⟨codeStrideRC, codeIndexRC, [], [⟨1, "stride_t_0"⟩]⟩
    ∧ eval envStrideBug codeIndexRC = some 3
    ∧ specInputIndexExpr "t" axesRC [2, 3] [false, true] [] =
      some ⟨specStrideRC, specIndexRC, [], [⟨0, "spec_stride_t_0"⟩]⟩
    ∧ eval envStrideBug specIndexRC = some 5
    ∧ createInputIndexExpr "t" axesRC [2, 3] [true, true] [] =
      some ⟨contigStrideRC, contigIndexRC, [], []⟩
    ∧ eval envContig contigIndexRC = some 5 := by
  refine ⟨rfl, ?_, rfl, ?_, rfl, ?_⟩
  · norm_num [codeIndexRC, eval, envStrideBug]
    simp only [String.reduceEq, if_false, if_true]
    norm_num
  · norm_num [specIndexRC, eval, envStrideBug]
    simp only [String.reduceEq, if_false, if_true]
    norm_num
  · norm_num [contigIndexRC, eval, envContig]
    simp only [String.reduceEq, if_false, if_true]
    norm_num

/-- Backend selection state of a kernel instance. -/
inductive BackendType
  | kUninitialized
  | kCudaCodeGen
  | kLLVMCodeGen
  | kSimpleIREval
deriving DecidableEq, Repr

/-- Device kinds as PickAndCheckBackendType distinguishes them: CUDA,
CPU, or any other device kind. -/
inductive DeviceType
  | cuda
  | cpu
  | strange
deriving DecidableEq, Repr

/-- One runtime operand of an invocation, as far as backend selection is
concerned: a tensor on some device, or a non-tensor value. -/
inductive RInput
  | tensor (d : DeviceType)
  | scalar
deriving DecidableEq, Repr

/-- Device of the first tensor-valued argument of the call; absence of
any tensor argument is the fatal no-tensor-inputs error. -/
def firstTensorDevice : List RInput → Except String DeviceType
  | [] => .error "No tensor inputs"
  | .tensor d :: _ => .ok d
  | .scalar :: rest => firstTensorDevice rest

/-- Backend implied by a device: CUDA gives the GPU backend, CPU gives
native codegen when it is enabled at build time and the interpreted
evaluator otherwise, and any other device is the fatal invalid-device
error. -/
def backendForDevice (enableLLVM : Bool) :
    DeviceType → Except String BackendType
  | .cuda => .ok .kCudaCodeGen
  | .cpu => .ok (if enableLLVM then .kLLVMCodeGen else .kSimpleIREval)
  | .strange => .error "Invalid device type"

/-- Kernel state that backend selection reads and writes: the locked
backend, the locked device, and how many times backend lowering ran. -/
structure KState where
  backend : BackendType
  device : Option DeviceType
  lowerCount : Nat
deriving DecidableEq, Repr

/-- State of a freshly constructed kernel. -/
def initKState : KState := ⟨.kUninitialized, none, 0⟩

/-- TensorExprKernel::PickAndCheckBackendType: derive the backend from
the device of the first tensor argument; while uninitialized, lock the
backend and device in and run backend lowering once; afterwards fail
with the backend-inconsistency error when the derived backend differs,
and leave the state untouched when it matches. -/
def pickAndCheckBackendType (enableLLVM : Bool) (st : KState)
    (inputs : List RInput) : Except String KState :=
  match firstTensorDevice inputs with
  | .error e => .error e
  | .ok d =>
      match backendForDevice enableLLVM d with
      | .error e => .error e
      | .ok bt =>
          if st.backend = .kUninitialized then
            .ok ⟨bt, some d, st.lowerCount + 1⟩
          else if st.backend ≠ bt then
            .error "Inconsistent backend_type"
          else
            .ok st

theorem backendForDevice_ne_uninit (enableLLVM : Bool) (d : DeviceType)
    (bt : BackendType) (h : backendForDevice enableLLVM d = .ok bt) :
    bt ≠ BackendType.kUninitialized := by
  cases d with
  | cuda =>
      simp [backendForDevice] at h
      rw [← h]
      intro hc
      cases hc
  | cpu =>
      simp [backendForDevice] at h
      cases enableLLVM <;> simp at h <;> rw [← h] <;> intro hc <;> cases hc
  | strange => simp [backendForDevice] at h

/-- Claim C6: the backend state machine moves from uninitialized to the
backend derived from the device of the first tensor argument (GPU for a
CUDA device; native or interpreted CPU depending on build-time support;
fatal invalid-device for any other device; fatal no-tensor-inputs when
no argument is a tensor), running lowering exactly once at that
transition; once set it is terminal: a later call whose first tensor
maps to a different backend fails with the backend-inconsistency error
without lowering or executing, and a matching call leaves the state (and
the lowering count) unchanged. -/
theorem claimC6_backend (enableLLVM : Bool) :
    (∀ rest, pickAndCheckBackendType enableLLVM initKState
        (.tensor .cuda :: rest) =
      .ok ⟨.kCudaCodeGen, some .cuda, 1⟩)
    ∧ (∀ rest, pickAndCheckBackendType enableLLVM initKState
        (.tensor .cpu :: rest) =
      .ok ⟨if enableLLVM then .kLLVMCodeGen else .kSimpleIREval,
        some .cpu, 1⟩)
    ∧ (∀ rest, pickAndCheckBackendType enableLLVM initKState
        (.tensor .strange :: rest) = .error "Invalid device type")
    ∧ (∀ st, pickAndCheckBackendType enableLLVM st [] =
        .error "No tensor inputs")
    ∧ (∀ st inputs, pickAndCheckBackendType enableLLVM st
        (.scalar :: inputs) = pickAndCheckBackendType enableLLVM st inputs)
    ∧ (∀ st inputs st2, st.backend = .kUninitialized →
        pickAndCheckBackendType enableLLVM st inputs = .ok st2 →
        st2.backend ≠ .kUninitialized
          ∧ st2.lowerCount = st.lowerCount + 1)
    ∧ (∀ st rest, st.backend = .kCudaCodeGen →
        pickAndCheckBackendType enableLLVM st (.tensor .cpu :: rest) =
          .error "Inconsistent backend_type")
    ∧ (∀ st rest,
        st.backend = .kLLVMCodeGen ∨ st.backend = .kSimpleIREval →
        pickAndCheckBackendType enableLLVM st (.tensor .cuda :: rest) =
          .error "Inconsistent backend_type")
    ∧ (∀ st d rest, st.backend ≠ .kUninitialized →
        backendForDevice enableLLVM d = .ok st.backend →
        pickAndCheckBackendType enableLLVM st (.tensor d :: rest) =
          .ok st) := by
  refine ⟨?_, ?_, ?_, ?_, ?_, ?_, ?_, ?_, ?_⟩
  · intro rest
    simp [pickAndCheckBackendType, firstTensorDevice, backendForDevice,
      initKState]
  · intro rest
    cases enableLLVM <;>
      simp [pickAndCheckBackendType, firstTensorDevice, backendForDevice,
        initKState]
  · intro rest
    simp [pickAndCheckBackendType, firstTensorDevice, backendForDevice]
  · intro st
    simp [pickAndCheckBackendType, firstTensorDevice]
  · intro st inputs
    simp [pickAndCheckBackendType, firstTensorDevice]
  · intro st inputs st2 h hok
    cases hd : firstTensorDevice inputs with
    | error e =>
        simp [pickAndCheckBackendType, hd] at hok
    | ok d =>
        cases hb : backendForDevice enableLLVM d with
        | error e =>
            simp [pickAndCheckBackendType, hd, hb] at hok
        | ok bt =>
            simp [pickAndCheckBackendType, hd, hb, h] at hok
            refine ⟨?_, ?_⟩
            · rw [← hok]
              exact backendForDevice_ne_uninit enableLLVM d bt hb
            · rw [← hok]
  · intro st rest h
    cases enableLLVM <;>
      simp [pickAndCheckBackendType, firstTensorDevice, backendForDevice, h]
  · intro st rest h
    rcases h with h | h <;>
      simp [pickAndCheckBackendType, firstTensorDevice, backendForDevice, h]
  · intro st d rest h hb
    simp [pickAndCheckBackendType, firstTensorDevice, hb, h]

/-- Witness for claim C6: a kernel locked to the GPU backend rejects a
CPU-tensor call with the backend-inconsistency error, and a fresh kernel
locks to the GPU backend on a CUDA call. -/
theorem claimC6_backend_witness :
    pickAndCheckBackendType true
        ⟨.kCudaCodeGen, some .cuda, 1⟩ [.tensor .cpu] =
      .error "Inconsistent backend_type"
    ∧ pickAndCheckBackendType true initKState [.tensor .cuda] =
        .ok ⟨.kCudaCodeGen, some .cuda, 1⟩ :=
  ⟨(claimC6_backend true).2.2.2.2.2.2.1 ⟨.kCudaCodeGen, some .cuda, 1⟩ []
      rfl,
    (claimC6_backend true).1 []⟩

/-- One concatenated operand of aten::cat: its size along the
concatenation axis, and its elements as a function of the (shifted)
index along that axis. -/
structure Seg where
  size : Nat
  elem : Int → Rat

/-- The loop of the aten::cat lowering, evaluated at output index a
along the concatenation axis: each later segment is guarded by the
offset accumulated so far, read at the current shifted index; after each
segment its size is added to the offset and the newly accumulated offset
is subtracted from the already-shifted index. -/
def catLoop (a : Int) (load : Rat) (offset : Nat) (newAx : Int) :
    List Seg → Rat
  | [] => load
  | s :: rest =>
      catLoop a (if a < (offset : Int) then load else s.elem newAx)
        (offset + s.size) (newAx - ((offset + s.size : Nat) : Int)) rest

/-- The aten::cat lowering at output index a: start from segment 0 read
at a, set the offset to segment 0 size, shift the index by it, and fold
the remaining segments. -/
def catLower (segs : List Seg) (a : Int) : Rat :=
  match segs with
  | [] => 0
  | s0 :: rest => catLoop a (s0.elem a) s0.size (a - (s0.size : Int)) rest

/-- Concatenation as the claim states it: output index a reads the
unique segment whose range contains a, at a minus the total size of the
preceding segments. -/
def catSpec : List Seg → Int → Rat
  | [], _ => 0
  | [s], a => s.elem a
  | s :: rest, a =>
      if a < (s.size : Int) then s.elem a else catSpec rest (a - s.size)

/-- First segment of the cat scenario: one element, value normal-form
0 + index. -/
def segCat0 : Seg := ⟨1, fun z => (z : Rat)⟩

/-- Second segment of the cat scenario: one element, value 100 + index. -/
def segCat1 : Seg := ⟨1, fun z => 100 + (z : Rat)⟩

/-- Third segment of the cat scenario: one element, value 200 + index. -/
def segCat2 : Seg := ⟨1, fun z => 200 + (z : Rat)⟩

/-- Claim C7: the cat lowering walks segments in input order
accumulating sizes into a running offset, and for two segments it reads
segment k at index minus the sizes before it; but the claimed read
position fails from the third segment on: at output index 2 of three
one-element segments the produced value is segment 2 read at -1 (value
199), not at 0 (value 200) as the claim requires for every K. -/
theorem claimC7_cat_bug :
    catLower [segCat0, segCat1, segCat2] 2 = 199
    ∧ catSpec [segCat0, segCat1, segCat2] 2 = 200
    ∧ catLower [segCat0, segCat1, segCat2] 2 ≠
        catSpec [segCat0, segCat1, segCat2] 2
    ∧ catLower [segCat0, segCat1] 1 = catSpec [segCat0, segCat1] 1
    ∧ catLower [segCat0, segCat1] 0 = catSpec [segCat0, segCat1] 0 := by
  refine ⟨?_, ?_, ?_, ?_, ?_⟩ <;>
    norm_num [catLower, catLoop, catSpec, segCat0, segCat1, segCat2]

/-- Truncation of a 64-bit integer to a 32-bit integer, the effect of
the C-style int32_t casts in TensorExprKernel::run (2147483648 is 2 to
the 31st, 4294967296 is 2 to the 32nd). -/
def wrap32 (z : Int) : Int := (z + 2147483648) % 4294967296 - 2147483648

/-- A runtime operand of TensorExprKernel::run: an integer scalar, a
double scalar, or a tensor with its actual sizes and strides. -/
inductive RunValue
  | rint (z : Int)
  | rdouble (q : Rat)
  | rtensor (sizes strides : List Int)
deriving DecidableEq, Repr

/-- One entry of the call-argument list assembled by run: a 32-bit
integer, a single-precision float, or a data pointer (identified here by
the input position). -/
inductive CallArg
  | i32 (z : Int)
  | f32 (q : Rat)
  | ptr (inputIdx : Nat)
deriving DecidableEq, Repr

/-- The kernel-argument descriptor of one bound input: its registered
dynamic-size parameters and stride parameters. -/
structure KernelArg where
  sizes : List ShapeArg
  strides : List ShapeArg
deriving DecidableEq, Repr

/-- Round a rational to the nearest integer, ties to even. -/
def roundHalfEven (x : Rat) : Int :=
  if x - ⌊x⌋ < 1 / 2 then ⌊x⌋
  else if 1 / 2 < x - ⌊x⌋ then ⌊x⌋ + 1
  else if ⌊x⌋ % 2 = 0 then ⌊x⌋ else ⌊x⌋ + 1

/-- Narrowing of a double scalar to IEEE single precision, modelled for
normal-range values: scale the magnitude down to a 24-bit significand
window, round to nearest with ties to even, and scale back. -/
def floatOfDouble (q : Rat) : Rat :=
  if q = 0 then 0
  else
    (if q < 0 then -1 else 1) *
      ((roundHalfEven (|q| / 2 ^ (Int.log 2 |q| - 23)) : Int) : Rat) *
        2 ^ (Int.log 2 |q| - 23)

/-- The call arguments run pushes for one input operand: an integer
scalar is truncated to 32 bits, a double scalar is narrowed to single
precision, and a tensor contributes its data pointer followed by one
32-bit value per registered size parameter and per registered stride
parameter, read from the actual tensor at the registered axis. -/
def runArgsFor (karg : KernelArg) (inputIdx : Nat) :
    RunValue → List CallArg
  | .rint z => [.i32 (wrap32 z)]
  | .rdouble q => [.f32 (floatOfDouble q)]
  | .rtensor sizes strides =>
      .ptr inputIdx ::
        (karg.sizes.map
            (fun sa => CallArg.i32 (wrap32 (sizes.getD sa.idx 0))) ++
          karg.strides.map
            (fun sa => CallArg.i32 (wrap32 (strides.getD sa.idx 0))))

/-- The size-variable-to-observed-value entries contributed by one input
operand: tensors bind each registered size variable to the actual size
at its axis, scalars bind nothing. -/
def varToSizeFor (karg : KernelArg) : RunValue → List (String × Int)
  | .rtensor sizes _ =>
      karg.sizes.map (fun sa => (sa.var, wrap32 (sizes.getD sa.idx 0)))
  | _ => []

/-- The whole size-variable-to-observed-value map of one invocation. -/
def varToSizeAll (kargs : List KernelArg) (inputs : List RunValue) :
    List (String × Int) :=
  (List.zip kargs inputs).foldl (fun m p => m ++ varToSizeFor p.1 p.2) []

/-- Resolution of one output dimension in run: a dimension expression
found in the size-variable map uses the observed value, a compile-time
integer immediate uses its constant, and anything else (in particular a
size variable never bound by any input) is the fatal shape-resolution
failure. -/
def resolveDim (m : List (String × Int)) : Expr → Option Int
  | .varE s _ => List.lookup s m
  | .intImm n => some n
  | _ => none

/-- Resolution of a whole output shape, dimension by dimension; none
models the fatal TORCH_CHECK failure. -/
def resolveShape (m : List (String × Int)) (dims : List Expr) :
    Option (List Int) :=
  dims.mapM (resolveDim m)

/-- Claim C8: output shapes are computed dimension by dimension on every
invocation, dynamic dimensions through the size-variable map bound from
the actual input tensors and constant dimensions from their immediates;
an unbound size variable is fatal; and one compiled kernel with a
dynamic axis 0, invoked with observed size 4 and then size 9 with no
reconstruction, yields output shapes [4] and [9]. -/
theorem claimC8_dynamic_shapes :
    (∀ m n, resolveDim m (Expr.intImm n) = some n)
    ∧ (∀ m s t v, List.lookup s m = some v →
        resolveDim m (Expr.varE s t) = some v)
    ∧ (∀ m s t, List.lookup s m = none →
        resolveDim m (Expr.varE s t) = none)
    ∧ varToSizeAll [⟨[⟨0, "size_0_0"⟩], []⟩]
        [.rtensor [4] [1]] = [("size_0_0", 4)]
    ∧ resolveShape
        (varToSizeAll [⟨[⟨0, "size_0_0"⟩], []⟩] [.rtensor [4] [1]])
        [Expr.varE "size_0_0" Dtype.kInt32] = some [4]
    ∧ resolveShape
        (varToSizeAll [⟨[⟨0, "size_0_0"⟩], []⟩] [.rtensor [9] [1]])
        [Expr.varE "size_0_0" Dtype.kInt32] = some [9]
    ∧ resolveShape [] [Expr.varE "size_0_0" Dtype.kInt32] = none
    ∧ (∀ m z, resolveShape m [Expr.intImm z] = some [z]) := by
  refine ⟨fun m n => rfl, ?_, ?_, by decide, by decide, by decide,
    by decide, ?_⟩
  · intro m s t v h
    unfold resolveDim
    exact h
  · intro m s t h
    unfold resolveDim
    exact h
  · intro m z
    rfl

/-- Witness for claim C8: resolution of a bound size variable observed
as 4 and the fatal resolution of an unbound size variable. -/
theorem claimC8_dynamic_shapes_witness :
    resolveDim [("size_0_0", 4)] (Expr.varE "size_0_0" Dtype.kInt32) =
      some 4
    ∧ resolveDim [] (Expr.varE "size_0_0" Dtype.kInt32) = none :=
  ⟨claimC8_dynamic_shapes.2.1 [("size_0_0", 4)] "size_0_0" Dtype.kInt32 4
      (by decide),
    claimC8_dynamic_shapes.2.2.1 [] "size_0_0" Dtype.kInt32 rfl⟩

theorem natLog_33554433 : Nat.log 2 33554433 = 25 :=
  Nat.log_eq_of_pow_le_of_lt_pow (by norm_num) (by norm_num)

theorem intLog_pow25 : Int.log 2 ((2 : Rat) ^ 25 + 1) = 25 := by
  have h : ((2 : Rat) ^ 25 + 1) = ((33554433 : Nat) : Rat) := by norm_num
  rw [h, Int.log_natCast, natLog_33554433]
  rfl

theorem floor_x25 : ⌊(33554433 / 4 : Rat)⌋ = 8388608 := by
  rw [Int.floor_eq_iff]
  constructor <;> norm_num

theorem roundHalfEven_x25 : roundHalfEven (33554433 / 4) = 8388608 := by
  unfold roundHalfEven
  rw [floor_x25, if_pos]
  push_cast
  norm_num

theorem floatOfDouble_pow25 :
    floatOfDouble ((2 : Rat) ^ 25 + 1) = 2 ^ 25 := by
  unfold floatOfDouble
  rw [if_neg (by norm_num : ¬((2 : Rat) ^ 25 + 1) = 0),
    if_neg (by norm_num : ¬((2 : Rat) ^ 25 + 1) < 0),
    abs_of_pos (by norm_num : (0 : Rat) < (2 : Rat) ^ 25 + 1),
    intLog_pow25,
    show (25 : Int) - 23 = 2 from by norm_num,
    show ((2 : Rat) ^ 25 + 1) / 2 ^ (2 : Int) = 33554433 / 4 from by
      norm_num,
    roundHalfEven_x25]
  norm_num

/-- Claim C10: every invocation narrows its arguments before the
compiled kernel runs: integer scalars are truncated to 32 bits (wrap32
stays in 32-bit range, is the identity there and changes every
out-of-range value), double scalars are narrowed to single precision
(the double 2^25 + 1 silently becomes 2^25), and every observed size and
stride of a tensor input is truncated to 32 bits. -/
theorem claimC10_narrowing :
    (∀ karg i z, runArgsFor karg i (.rint z) = [.i32 (wrap32 z)])
    ∧ (∀ z : Int, -(2 ^ 31) ≤ wrap32 z ∧ wrap32 z < 2 ^ 31)
    ∧ (∀ z : Int, -(2 ^ 31) ≤ z → z < 2 ^ 31 → wrap32 z = z)
    ∧ (∀ z : Int, 2 ^ 31 ≤ z ∨ z < -(2 ^ 31) → wrap32 z ≠ z)
    ∧ (∀ karg i q, runArgsFor karg i (.rdouble q) =
        [.f32 (floatOfDouble q)])
    ∧ floatOfDouble (2 ^ 25 + 1) = 2 ^ 25
    ∧ floatOfDouble (2 ^ 25 + 1) ≠ 2 ^ 25 + 1
    ∧ (∀ karg i sizes strides,
        runArgsFor karg i (.rtensor sizes strides) =
          .ptr i ::
            (karg.sizes.map
                (fun sa => CallArg.i32 (wrap32 (sizes.getD sa.idx 0))) ++
              karg.strides.map
                (fun sa =>
                  CallArg.i32 (wrap32 (strides.getD sa.idx 0))))) := by
  have hp : ((2 : Int) ^ 31) = 2147483648 := by norm_num
  refine ⟨fun karg i z => rfl, ?_, ?_, ?_, fun karg i q => rfl,
    floatOfDouble_pow25, ?_, fun karg i sizes strides => rfl⟩
  · intro z
    rw [hp]
    unfold wrap32
    omega
  · intro z h1 h2
    rw [hp] at h1 h2
    unfold wrap32
    omega
  · intro z h
    rw [hp] at h
    unfold wrap32
    omega
  · rw [floatOfDouble_pow25]
    norm_num

/-- Witness for claim C10: 5 survives the 32-bit truncation while 2^31
does not. -/
theorem claimC10_narrowing_witness :
    wrap32 5 = 5 ∧ wrap32 (2 ^ 31) ≠ 2 ^ 31 :=
  ⟨claimC10_narrowing.2.2.1 5 (by norm_num) (by norm_num),
    claimC10_narrowing.2.2.2.1 (2 ^ 31) (Or.inl (by norm_num))⟩

end TE
